import Mathlib

/-!
Verification development for the statussentinel monitoring daemon.

The Rust sources are shallowly embedded:
* `src/request.rs` — the varint codec (`write_varint` / `read_varint`), the
  HTTP reachability probe (`get_request_response_time`) and the binary
  handshake probe (`get_minecraft_response_time`).  Network I/O results are
  supplied by explicit environment values; machine-integer overflow is
  tracked with explicit `% 2 ^ 32` on the 32-bit accumulator.
* `src/database.rs` — `format_service_id` and the storage operations
  (`add_response_time`, `count_recent_failures`, `list_incidents`,
  `add_incident`, `end_incident`) as pure state transformers over a
  `Storage` record mirroring the two SQL tables.
* `src/main.rs` — the per-service monitoring-task body (`evaluate`,
  returning `none` exactly where the Rust code would panic on `unwrap`)
  and one monitoring cycle (`runCycle`).
-/

namespace StatusSentinel

/-! ### Varint codec (src/request.rs, write_varint / read_varint)

Bytes are modelled as natural numbers carrying the `u8` value. -/

inductive VarintError where
  | protocolError
  | transportError
deriving DecidableEq

/-- Two's-complement reinterpretation of a 32-bit pattern as an `i32`. -/
def toInt32 (u : Nat) : Int :=
  if u < 2 ^ 31 then (u : Int) else (u : Int) - 2 ^ 32

/-- `write_varint` from src/request.rs: little-endian base-128 groups, the
high bit of a byte marking continuation (`temp` inlined). -/
def write_varint (value : Nat) : List Nat :=
  if value >>> 7 = 0 then [value &&& 127]
  else (value &&& 127 ||| 128) :: write_varint (value >>> 7)
termination_by value
decreasing_by
  rename_i h
  rw [Nat.shiftRight_eq_div_pow] at h ⊢
  exact Nat.div_lt_self (Nat.pos_of_ne_zero (fun h0 => h (by simp [h0]))) (by norm_num)

/-- The loop of `read_varint` from src/request.rs: `result` and `shift` are
the mutable locals; the accumulator is truncated to 32 bits as the `i32`
`|=` / `<<` are. -/
def readVarintLoop (result shift : Nat) (stream : List Nat) : Except VarintError (Int × List Nat) :=
  match stream with
  | [] => .error .transportError
  | b :: rest =>
    let result2 := (result ||| (b &&& 127) <<< shift) % 2 ^ 32
    if b &&& 128 = 0 then .ok (toInt32 result2, rest)
    else if 32 ≤ shift + 7 then .error .protocolError
    else readVarintLoop result2 (shift + 7) rest

/-- `read_varint` from src/request.rs. -/
def read_varint (stream : List Nat) : Except VarintError (Int × List Nat) :=
  readVarintLoop 0 0 stream

lemma and_127_eq_mod (b : Nat) : b &&& 127 = b % 128 := by
  have h := Nat.and_pow_two_sub_one_eq_mod b 7
  norm_num at h
  exact h

lemma and_128_eq_zero {b : Nat} (h : b < 128) : b &&& 128 = 0 := by
  apply Nat.eq_of_testBit_eq
  intro i
  simp only [Nat.testBit_and, Nat.zero_testBit, Bool.and_eq_false_iff]
  by_cases hi : i = 7
  · subst hi
    left
    exact Nat.testBit_lt_two_pow (by norm_num; omega)
  · right
    have h128 : (128 : Nat) = 2 ^ 7 := by norm_num
    rw [h128]
    exact Nat.testBit_two_pow_of_ne (fun hc => hi hc.symm)

lemma lor_128_and_128 (x : Nat) : (x ||| 128) &&& 128 ≠ 0 := by
  intro h
  have h7 : ((x ||| 128) &&& 128).testBit 7 = false := by rw [h]; simp
  rw [Nat.testBit_and, Nat.testBit_or] at h7
  have h128 : (128 : Nat) = 2 ^ 7 := by norm_num
  rw [h128, Nat.testBit_two_pow_self] at h7
  simp at h7

lemma lor_128_and_127 (x : Nat) : (x ||| 128) &&& 127 = x &&& 127 := by
  rw [Nat.and_distrib_right]
  have h0 : (128 : Nat) &&& 127 = 0 := by decide
  rw [h0, Nat.or_zero]

lemma and_127_and_127 (x : Nat) : x &&& 127 &&& 127 = x &&& 127 := by
  rw [Nat.and_assoc]
  norm_num

/-- Splitting a value into its low 7 bits and the rest commutes with
shifting: the two shifted groups recombine by `|||`. -/
lemma shiftLeft_split (value shift : Nat) :
    (value &&& 127) <<< shift ||| (value >>> 7) <<< (shift + 7) = value <<< shift := by
  rw [and_127_eq_mod, Nat.shiftRight_eq_div_pow,
      Nat.shiftLeft_eq, Nat.shiftLeft_eq, Nat.shiftLeft_eq]
  norm_num
  have hb : value % 128 * 2 ^ shift < 2 ^ (shift + 7) := by
    calc value % 128 * 2 ^ shift < 128 * 2 ^ shift :=
          (Nat.mul_lt_mul_right (Nat.two_pow_pos shift)).mpr (Nat.mod_lt _ (by norm_num))
      _ = 2 ^ (shift + 7) := by rw [pow_add]; ring
  have h := Nat.mul_add_lt_is_or hb (value / 128)
  rw [Nat.lor_comm, Nat.mul_comm (value / 128) (2 ^ (shift + 7)), ← h]
  have harith : 2 ^ (shift + 7) * (value / 128) + value % 128 * 2 ^ shift
      = (128 * (value / 128) + value % 128) * 2 ^ shift := by
    rw [pow_add]; ring
  rw [harith, Nat.div_add_mod]

/-- Soundness of the decode loop on an encoded value followed by any rest. -/
lemma readVarintLoop_write (value : Nat) : ∀ (shift result : Nat) (rest : List Nat),
    value < 2 ^ (31 - shift) → result < 2 ^ 32 →
    readVarintLoop result shift (write_varint value ++ rest) =
      .ok (toInt32 (result ||| value <<< shift), rest) := by
  induction value using Nat.strong_induction_on with
  | _ value ih =>
    intro shift result rest hval hres
    rw [write_varint]
    by_cases h7 : value >>> 7 = 0
    · have hlt : value < 128 := by
        rw [Nat.shiftRight_eq_div_pow] at h7
        have h2 := (Nat.div_eq_zero_iff (by norm_num : 0 < 2 ^ 7)).mp h7
        norm_num at h2
        exact h2
      rw [if_pos h7, List.cons_append, List.nil_append, readVarintLoop]
      have hand : value &&& 127 = value := by
        rw [and_127_eq_mod]
        exact Nat.mod_eq_of_lt hlt
      simp only [hand, and_128_eq_zero hlt]
      have hfit : result ||| value <<< shift < 2 ^ 32 := by
        apply Nat.or_lt_two_pow hres
        rw [Nat.shiftLeft_eq]
        rcases Nat.eq_zero_or_pos value with h0 | h0
        · subst h0
          simp
        · have hs : shift ≤ 31 := by
            by_contra hgt
            have hz : 31 - shift = 0 := by omega
            rw [hz] at hval
            norm_num at hval
            omega
          calc value * 2 ^ shift < 2 ^ (31 - shift) * 2 ^ shift :=
                (Nat.mul_lt_mul_right (Nat.two_pow_pos shift)).mpr hval
            _ = 2 ^ 31 := by rw [← pow_add]; congr 1; omega
            _ < 2 ^ 32 := by norm_num
      rw [Nat.mod_eq_of_lt hfit]
      simp
    · have hge : 128 ≤ value := by
        by_contra hlt
        rw [Nat.shiftRight_eq_div_pow] at h7
        exact h7 (Nat.div_eq_of_lt (by norm_num; omega))
      have hshift_lt : shift < 24 := by
        by_contra hge24
        have h1 : (2 : Nat) ^ (31 - shift) ≤ 2 ^ 7 :=
          Nat.pow_le_pow_right (by norm_num) (by omega)
        have h2 : value < 2 ^ 7 := lt_of_lt_of_le hval h1
        norm_num at h2
        omega
      rw [if_neg h7, List.cons_append, readVarintLoop]
      simp only [lor_128_and_127, and_127_and_127, if_neg (lor_128_and_128 _),
        if_neg (by omega : ¬ 32 ≤ shift + 7)]
      have hfit : result ||| (value &&& 127) <<< shift < 2 ^ 32 := by
        apply Nat.or_lt_two_pow hres
        rw [Nat.shiftLeft_eq, and_127_eq_mod]
        calc value % 128 * 2 ^ shift < 128 * 2 ^ shift :=
              (Nat.mul_lt_mul_right (Nat.two_pow_pos shift)).mpr
                (Nat.mod_lt _ (by norm_num))
          _ = 2 ^ (shift + 7) := by rw [pow_add]; ring
          _ ≤ 2 ^ 32 := Nat.pow_le_pow_right (by norm_num) (by omega)
      rw [Nat.mod_eq_of_lt hfit]
      have hdec : value >>> 7 < value := by
        rw [Nat.shiftRight_eq_div_pow]
        exact Nat.div_lt_self (by omega) (by norm_num)
      have hb2 : value >>> 7 < 2 ^ (31 - (shift + 7)) := by
        rw [Nat.shiftRight_eq_div_pow]
        rw [Nat.div_lt_iff_lt_mul (by norm_num : (0 : Nat) < 2 ^ 7)]
        calc value < 2 ^ (31 - shift) := hval
          _ = 2 ^ (31 - (shift + 7)) * 2 ^ 7 := by rw [← pow_add]; congr 1; omega
      rw [ih (value >>> 7) hdec (shift + 7)
        (result ||| (value &&& 127) <<< shift) rest hb2 hfit]
      have hkey : result ||| (value &&& 127) <<< shift ||| (value >>> 7) <<< (shift + 7)
          = result ||| value <<< shift := by
        rw [Nat.or_assoc, shiftLeft_split]
      rw [hkey]

/-- C6: for every non-negative 32-bit integer `n`, decoding the bytes
produced by encoding `n` returns `n` with the stream fully consumed, and
the encoding emits at least one byte (so also for `n = 0`). -/
theorem varint_roundtrip (n : Nat) (h : n < 2 ^ 31) :
    read_varint (write_varint n) = .ok ((n : Int), []) ∧ 0 < (write_varint n).length := by
  constructor
  · have hmain := readVarintLoop_write n 0 0 [] (by simpa using h) (by norm_num)
    rw [List.append_nil] at hmain
    rw [read_varint, hmain]
    simp only [Nat.zero_or, Nat.shiftLeft_zero]
    rw [toInt32, if_pos h]
  · rw [write_varint]
    split <;> simp

/-- C6 witness: the round trip evaluated at the concrete value 300. -/
theorem varint_roundtrip_witness :
    read_varint (write_varint 300) = .ok ((300 : Int), []) ∧
      0 < (write_varint 300).length :=
  varint_roundtrip 300 (by norm_num)

/-- C7: `read_varint` fails with a protocol error on every stream whose
first five bytes all carry the continuation bit (the accumulated shift
reaches 32 before a terminating byte), and fails with the transport-style
error on every stream exhausted before a byte with a clear continuation
bit; in neither case is a value returned. -/
theorem varint_decode_rejects (stream : List Nat) :
    ((∀ b ∈ stream.take 5, b &&& 128 ≠ 0) → 5 ≤ stream.length →
        read_varint stream = .error .protocolError) ∧
    ((∀ b ∈ stream, b &&& 128 ≠ 0) → stream.length < 5 →
        read_varint stream = .error .transportError) := by
  constructor
  · intro hb hlen
    match stream, hlen with
    | b0 :: b1 :: b2 :: b3 :: b4 :: rest, _ =>
      have h0 : b0 &&& 128 ≠ 0 := hb b0 (by simp)
      have h1 : b1 &&& 128 ≠ 0 := hb b1 (by simp)
      have h2 : b2 &&& 128 ≠ 0 := hb b2 (by simp)
      have h3 : b3 &&& 128 ≠ 0 := hb b3 (by simp)
      have h4 : b4 &&& 128 ≠ 0 := hb b4 (by simp)
      rw [read_varint]
      rw [readVarintLoop]
      simp only [if_neg h0, if_neg (by norm_num : ¬ 32 ≤ 0 + 7)]
      rw [readVarintLoop]
      simp only [if_neg h1, if_neg (by norm_num : ¬ 32 ≤ 0 + 7 + 7)]
      rw [readVarintLoop]
      simp only [if_neg h2, if_neg (by norm_num : ¬ 32 ≤ 0 + 7 + 7 + 7)]
      rw [readVarintLoop]
      simp only [if_neg h3, if_neg (by norm_num : ¬ 32 ≤ 0 + 7 + 7 + 7 + 7)]
      rw [readVarintLoop]
      simp only [if_neg h4, if_pos (by norm_num : 32 ≤ 0 + 7 + 7 + 7 + 7 + 7)]
  · intro hb hlen
    rcases stream with _ | ⟨b0, _ | ⟨b1, _ | ⟨b2, _ | ⟨b3, rest⟩⟩⟩⟩
    · rw [read_varint, readVarintLoop]
    · have h0 : b0 &&& 128 ≠ 0 := hb b0 (by simp)
      rw [read_varint, readVarintLoop]
      simp only [if_neg h0, if_neg (by norm_num : ¬ 32 ≤ 0 + 7)]
      rw [readVarintLoop]
    · have h0 : b0 &&& 128 ≠ 0 := hb b0 (by simp)
      have h1 : b1 &&& 128 ≠ 0 := hb b1 (by simp)
      rw [read_varint, readVarintLoop]
      simp only [if_neg h0, if_neg (by norm_num : ¬ 32 ≤ 0 + 7)]
      rw [readVarintLoop]
      simp only [if_neg h1, if_neg (by norm_num : ¬ 32 ≤ 0 + 7 + 7)]
      rw [readVarintLoop]
    · have h0 : b0 &&& 128 ≠ 0 := hb b0 (by simp)
      have h1 : b1 &&& 128 ≠ 0 := hb b1 (by simp)
      have h2 : b2 &&& 128 ≠ 0 := hb b2 (by simp)
      rw [read_varint, readVarintLoop]
      simp only [if_neg h0, if_neg (by norm_num : ¬ 32 ≤ 0 + 7)]
      rw [readVarintLoop]
      simp only [if_neg h1, if_neg (by norm_num : ¬ 32 ≤ 0 + 7 + 7)]
      rw [readVarintLoop]
      simp only [if_neg h2, if_neg (by norm_num : ¬ 32 ≤ 0 + 7 + 7 + 7)]
      rw [readVarintLoop]
    · match rest, hlen with
      | [], _ =>
        have h0 : b0 &&& 128 ≠ 0 := hb b0 (by simp)
        have h1 : b1 &&& 128 ≠ 0 := hb b1 (by simp)
        have h2 : b2 &&& 128 ≠ 0 := hb b2 (by simp)
        have h3 : b3 &&& 128 ≠ 0 := hb b3 (by simp)
        rw [read_varint, readVarintLoop]
        simp only [if_neg h0, if_neg (by norm_num : ¬ 32 ≤ 0 + 7)]
        rw [readVarintLoop]
        simp only [if_neg h1, if_neg (by norm_num : ¬ 32 ≤ 0 + 7 + 7)]
        rw [readVarintLoop]
        simp only [if_neg h2, if_neg (by norm_num : ¬ 32 ≤ 0 + 7 + 7 + 7)]
        rw [readVarintLoop]
        simp only [if_neg h3, if_neg (by norm_num : ¬ 32 ≤ 0 + 7 + 7 + 7 + 7)]
        rw [readVarintLoop]

/-- C7 witness: the two rejection modes at concrete streams. -/
theorem varint_decode_rejects_witness :
    read_varint [128, 129, 255, 200, 128] = .error .protocolError ∧
      read_varint [128, 255] = .error .transportError :=
  ⟨(varint_decode_rejects _).1 (by decide) (by decide),
   (varint_decode_rejects _).2 (by decide) (by decide)⟩

/-! ### Identifier normalization (src/database.rs, format_service_id) -/

structure MonitoringError where
  msg : String
deriving DecidableEq

/-- `format_service_id` from src/database.rs: lowercase, spaces to
underscores, keep only ASCII alphanumerics and underscores, error when
nothing remains.  `Char.toLower` and `Char.isAlphanum` are the ASCII maps,
matching the source on its ASCII inputs. -/
def format_service_id (name : String) : Except MonitoringError String :=
  let id := String.mk (((name.data.map Char.toLower).map
    (fun c => if c = ' ' then '_' else c)).filter
    (fun c => c.isAlphanum || c = '_'))
  if id = "" then .error ⟨"Invalid service name"⟩ else .ok id

/-- The image of one input character under the lowercase/underscore
pipeline of `format_service_id`. -/
def normChar (c : Char) : Char :=
  if Char.toLower c = ' ' then '_' else Char.toLower c

/-- Whether one input character survives the filter of
`format_service_id`. -/
def keptChar (c : Char) : Bool :=
  (normChar c).isAlphanum || normChar c = '_'

lemma format_service_id_pipeline (name : String) :
    ((name.data.map Char.toLower).map (fun c => if c = ' ' then '_' else c)).filter
        (fun c => c.isAlphanum || c = '_')
      = (name.data.map normChar).filter (fun c => c.isAlphanum || c = '_') := by
  rw [List.map_map]
  rfl

/-- C9: identifier normalization maps "My Service!" to "my_service",
rejects "!!!", fails exactly when no character of the name survives the
lowercase/underscore/strip pipeline, and any produced identifier is
nonempty and made only of alphanumerics and underscores. -/
theorem format_service_id_spec :
    format_service_id "My Service!" = .ok "my_service" ∧
    format_service_id "!!!" = .error ⟨"Invalid service name"⟩ ∧
    (∀ name : String, (∃ e, format_service_id name = .error e) ↔
      ∀ c ∈ name.data, keptChar c = false) ∧
    (∀ (name r : String), format_service_id name = .ok r →
      r ≠ "" ∧ ∀ c ∈ r.data, (c.isAlphanum || c = '_') = true) := by
  refine ⟨by rfl, by rfl, ?_, ?_⟩
  · intro name
    rw [format_service_id]
    simp only [format_service_id_pipeline]
    split
    · rename_i hemp
      simp only [String.ext_iff] at hemp
      simp only [List.filter_eq_nil_iff] at hemp
      constructor
      · intro _ c hc
        have := hemp (normChar c) (List.mem_map_of_mem normChar hc)
        simpa [keptChar] using this
      · intro _
        exact ⟨⟨"Invalid service name"⟩, rfl⟩
    · rename_i hne
      simp only [String.ext_iff] at hne
      constructor
      · rintro ⟨e, he⟩
        simp at he
      · intro hall
        exfalso
        apply hne
        simp only [List.filter_eq_nil_iff]
        intro a ha
        obtain ⟨c, hc, rfl⟩ := List.mem_map.mp ha
        simpa [keptChar] using hall c hc
  · intro name r hok
    rw [format_service_id] at hok
    simp only [format_service_id_pipeline] at hok
    split at hok
    · simp at hok
    · rename_i hne
      obtain rfl : String.mk ((name.data.map normChar).filter
          (fun c => c.isAlphanum || c = '_')) = r := by
        simpa using hok
      refine ⟨hne, ?_⟩
      intro c hc
      have hc2 : c ∈ List.filter (fun c => c.isAlphanum || decide (c = '_'))
          (name.data.map normChar) := hc
      exact (List.mem_filter.mp hc2).2

/-- C9 witness: the output characterization applied to the concrete input
"My Service!". -/
theorem format_service_id_spec_witness :
    "my_service" ≠ "" ∧ ∀ c ∈ "my_service".data, (c.isAlphanum || c = '_') = true :=
  format_service_id_spec.2.2.2 "My Service!" "my_service" (by rfl)

/-! ### HTTP reachability probe (src/request.rs, get_request_response_time)

The outcome of the underlying network request is an explicit environment
value. -/

inductive ResponseResult where
  | Success (time : Int)
  | StatusError (status : String)
deriving DecidableEq

/-- Result of `client.get(url).send()`: a transport-layer failure carrying
its message (connection error, timeout, DNS failure), or a response with
its success flag, measured elapsed milliseconds and status text. -/
inductive HttpOutcome where
  | netError (msg : String)
  | response (success : Bool) (elapsed : Int) (status : String)
deriving DecidableEq

/-- `get_request_response_time` from src/request.rs: a transport error is
returned as `Err` (the source applies `?` to `send()`); a response maps to
`Success` with the elapsed time or `StatusError` with the status text. -/
def get_request_response_time (env : HttpOutcome) : Except String ResponseResult :=
  match env with
  | .netError msg => .error msg
  | .response ok elapsed status =>
    if ok then .ok (.Success elapsed) else .ok (.StatusError status)

/-! ### Handshake probe (src/request.rs, get_minecraft_response_time) -/

/-- Environment of one `get_minecraft_response_time` call: success of each
fallible I/O step, the bytes available to the final varint read, and the
elapsed milliseconds measured at the success point. -/
structure McEnv where
  connectOk : Bool
  setReadTimeoutOk : Bool
  setWriteTimeoutOk : Bool
  write1Ok : Bool
  write2Ok : Bool
  response : List Nat
  elapsed : Int
deriving DecidableEq

/-- `get_minecraft_response_time` from src/request.rs: connect failure and
write failures yield `Ok 0`; the two socket-timeout setters are applied
with `?` and so propagate as `Err`; the final varint read decides between
the elapsed time and 0. -/
def get_minecraft_response_time (env : McEnv) : Except String Int :=
  if env.connectOk then
    if env.setReadTimeoutOk = false then .error "set_read_timeout failed"
    else if env.setWriteTimeoutOk = false then .error "set_write_timeout failed"
    else if env.write1Ok = false then .ok 0
    else if env.write2Ok = false then .ok 0
    else
      match read_varint env.response with
      | .ok _ => .ok env.elapsed
      | .error _ => .ok 0
  else .ok 0

/-- C8 counterexample: with a successful connect but a failing
`set_read_timeout` call the probe returns a hard error, refuting the claim
that it returns `Ok` for every input. -/
theorem mc_probe_not_total :
    get_minecraft_response_time ⟨true, false, true, true, true, [0], 5⟩ =
      .error "set_read_timeout failed" := by
  rfl

/-- C8 amended: whenever the two socket-timeout configuration calls
succeed, the probe returns `Ok`; any connect, write or varint-read failure
then yields `Ok 0`; and a positive result is returned only when the
connect, both packet writes, and the response-length varint read all
succeeded, the result being the measured elapsed time. -/
theorem mc_probe_amended (env : McEnv)
    (hr : env.setReadTimeoutOk = true) (hw : env.setWriteTimeoutOk = true) :
    (∃ v, get_minecraft_response_time env = .ok v) ∧
    ((env.connectOk = false ∨ env.write1Ok = false ∨ env.write2Ok = false ∨
        (read_varint env.response).isOk = false) →
      get_minecraft_response_time env = .ok 0) ∧
    (∀ t : Int, get_minecraft_response_time env = .ok t → 0 < t →
      env.connectOk = true ∧ env.write1Ok = true ∧ env.write2Ok = true ∧
        (read_varint env.response).isOk = true ∧ t = env.elapsed) := by
  obtain ⟨c, r, w, w1, w2, resp, el⟩ := env
  simp only at hr hw
  subst hr
  subst hw
  rcases hrv : read_varint resp with e | v <;>
    cases c <;> cases w1 <;> cases w2 <;>
      simp_all [get_minecraft_response_time, Except.isOk, Except.toBool]

/-- C8 amended witness: the fully successful environment, where the probe
returns the measured elapsed time. -/
theorem mc_probe_amended_witness :
    (∃ v, get_minecraft_response_time ⟨true, true, true, true, true, [0], 5⟩ = .ok v) ∧
    (((true : Bool) = false ∨ (true : Bool) = false ∨ (true : Bool) = false ∨
        (read_varint [0]).isOk = false) →
      get_minecraft_response_time ⟨true, true, true, true, true, [0], 5⟩ = .ok 0) ∧
    (∀ t : Int,
      get_minecraft_response_time ⟨true, true, true, true, true, [0], 5⟩ = .ok t →
        0 < t → (true : Bool) = true ∧ (true : Bool) = true ∧ (true : Bool) = true ∧
          (read_varint [0]).isOk = true ∧ t = 5) :=
  mc_probe_amended ⟨true, true, true, true, true, [0], 5⟩ rfl rfl

/-! ### Storage model (src/database.rs)

The two SQL tables become lists; every storage operation is a pure state
transformer on `Storage`, mirroring the corresponding SQL statement. -/

structure Service where
  id : String
  name : String
  server_url : String
  response_times : List Int
  is_online : Bool
deriving DecidableEq

structure Incident where
  id : Nat
  service_id : String
  service_name : String
  start_time : Nat
  end_time : Option Nat
  description : String
deriving DecidableEq

structure Storage where
  services : List Service
  incidents : List Incident
  nextIncidentId : Nat
deriving DecidableEq

/-- The history bound hard-coded in `add_response_time`. -/
def MAX_RESPONSE_TIMES : Nat := 129600

/-- The array CASE inside `add_response_time`: at or above capacity the
first element is dropped, then the new value is appended. -/
def ringAppend (h : List Int) (v : Int) : List Int :=
  if MAX_RESPONSE_TIMES ≤ h.length then h.tail ++ [v] else h ++ [v]

/-- `add_response_time` from src/database.rs: bounded append plus the
online-flag update on the matching service row. -/
def Storage.add_response_time (st : Storage) (sid : String) (rt : Int) : Storage :=
  { st with services := st.services.map (fun s =>
      if s.id == sid then
        { s with response_times := ringAppend s.response_times rt,
                 is_online := decide (0 < rt) }
      else s) }

/-- The `response_times` array of the service row with the given id. -/
def Storage.getHistory (st : Storage) (sid : String) : List Int :=
  match st.services.find? (fun s => s.id == sid) with
  | some s => s.response_times
  | none => []

/-- The trailing window of `count_recent_failures`: the last `limit`
entries when more are present, else the whole array. -/
def recentWindow (rt : List Int) (limit : Nat) : List Int :=
  if limit < rt.length then rt.drop (rt.length - limit) else rt

/-- `count_recent_failures` from src/database.rs: zero-valued samples in
the trailing window. -/
def Storage.count_recent_failures (st : Storage) (sid : String) (limit : Nat) : Nat :=
  (recentWindow (st.getHistory sid) limit).countP (fun x => x == 0)

/-- `list_incidents` from src/database.rs: all incidents, or only those
with `end_time IS NULL`. -/
def Storage.list_incidents (st : Storage) (includeClosed : Bool) : List Incident :=
  if includeClosed then st.incidents
  else st.incidents.filter (fun i => i.end_time.isNone)

/-- `add_incident` from src/database.rs: snapshot the service name, insert
an open incident with the next serial id. -/
def Storage.add_incident (st : Storage) (sid : String) (description : String)
    (now : Nat) : Storage :=
  let service_name := match st.services.find? (fun s => s.id == sid) with
    | some s => s.name
    | none => ""
  let inc : Incident :=
    { id := st.nextIncidentId
      service_id := sid
      service_name := service_name
      start_time := now
      end_time := none
      description := description }
  { st with
    incidents := st.incidents ++ [inc],
    nextIncidentId := st.nextIncidentId + 1 }

/-- `end_incident` from src/database.rs: set `end_time` on the incident
with the given id, only where `end_time IS NULL`. -/
def Storage.end_incident (st : Storage) (iid : Nat) (now : Nat) : Storage :=
  { st with incidents := st.incidents.map (fun i =>
      if i.id == iid && i.end_time.isNone then { i with end_time := some now } else i) }

/-- The open incidents recorded for one service. -/
def openIncidentsFor (st : Storage) (sid : String) : List Incident :=
  (st.list_incidents false).filter (fun i => i.service_id == sid)

/-- The close loop of the `Success` branch (src/main.rs lines 162-168):
fetch the open incidents once, end each one matching the service. -/
def Storage.closeAllFor (st : Storage) (sid : String) (now : Nat) : Storage :=
  (st.list_incidents false).foldl
    (fun acc inc =>
      if inc.service_id == sid then acc.end_incident inc.id now else acc) st

/-- C5: `add_response_time` keeps every history at or below 129600
entries (also under repetition, by the fold conjunct); an append at exact
capacity drops precisely the first entry and puts the new value last,
keeping the length; an append below capacity appends. -/
theorem ring_buffer_spec :
    (∀ (st : Storage) (sid : String) (rt : Int),
      (∀ s ∈ st.services, s.response_times.length ≤ MAX_RESPONSE_TIMES) →
      ∀ s ∈ (st.add_response_time sid rt).services,
        s.response_times.length ≤ MAX_RESPONSE_TIMES) ∧
    (∀ (vs : List Int) (h : List Int), h.length ≤ MAX_RESPONSE_TIMES →
      (vs.foldl ringAppend h).length ≤ MAX_RESPONSE_TIMES) ∧
    (∀ (h : List Int) (v : Int), h.length = MAX_RESPONSE_TIMES →
      ringAppend h v = h.tail ++ [v] ∧
        (ringAppend h v).length = MAX_RESPONSE_TIMES) ∧
    (∀ (h : List Int) (v : Int), h.length < MAX_RESPONSE_TIMES →
      ringAppend h v = h ++ [v]) := by
  have hstep : ∀ (h : List Int) (v : Int), h.length ≤ MAX_RESPONSE_TIMES →
      (ringAppend h v).length ≤ MAX_RESPONSE_TIMES := by
    intro h v hle
    rw [ringAppend]
    split
    · rename_i hcap
      simp only [List.length_append, List.length_tail, List.length_cons,
        List.length_nil]
      have hmax : 0 < MAX_RESPONSE_TIMES := by rw [MAX_RESPONSE_TIMES]; omega
      omega
    · rename_i hcap
      simp only [List.length_append, List.length_cons, List.length_nil]
      omega
  refine ⟨?_, ?_, ?_, ?_⟩
  · intro st sid rt hinv s hs
    rw [Storage.add_response_time] at hs
    simp only [List.mem_map] at hs
    obtain ⟨s0, hs0, rfl⟩ := hs
    split
    · exact hstep _ _ (hinv s0 hs0)
    · exact hinv s0 hs0
  · intro vs
    induction vs with
    | nil => intro h hle; exact hle
    | cons v vs ihv =>
      intro h hle
      exact ihv _ (hstep h v hle)
  · intro h v hlen
    constructor
    · rw [ringAppend, if_pos (by omega)]
    · rw [ringAppend, if_pos (by omega)]
      simp only [List.length_append, List.length_tail, List.length_cons,
        List.length_nil]
      have hmax : 0 < MAX_RESPONSE_TIMES := by rw [MAX_RESPONSE_TIMES]; omega
      omega
  · intro h v hlen
    rw [ringAppend, if_neg (by omega)]

/-- C5 witness: an append at exact capacity and one below capacity. -/
theorem ring_buffer_spec_witness :
    (ringAppend (List.replicate MAX_RESPONSE_TIMES (0 : Int)) 7 =
        (List.replicate MAX_RESPONSE_TIMES (0 : Int)).tail ++ [7] ∧
      (ringAppend (List.replicate MAX_RESPONSE_TIMES (0 : Int)) 7).length =
        MAX_RESPONSE_TIMES) ∧
    ringAppend [3] 7 = [3] ++ [7] :=
  ⟨ring_buffer_spec.2.2.1 _ 7 (by simp),
   ring_buffer_spec.2.2.2 [3] 7 (by rw [MAX_RESPONSE_TIMES]; norm_num)⟩

/-! ### Monitoring loop model (src/main.rs, run_monitoring_loop) -/

/-- The in-memory `service_states` map: association list from service name
to the `has_open_incident` flag. -/
def lookupState (m : List (String × Bool)) (k : String) : Option Bool :=
  (m.find? (fun p => p.1 == k)).map (fun p => p.2)

/-- Mutation through `states.get_mut(&name)`: update the value stored for
an existing key. -/
def setState (m : List (String × Bool)) (k : String) (v : Bool) :
    List (String × Bool) :=
  m.map (fun p => if p.1 == k then (p.1, v) else p)

/-- The per-cycle pre-pass inserting a default runtime state for every
service name not yet present (src/main.rs lines 91-100). -/
def ensureStates (m : List (String × Bool)) (names : List String) :
    List (String × Bool) :=
  names.foldl
    (fun acc n => if (lookupState acc n).isSome then acc else acc ++ [(n, false)]) m

structure SysState where
  storage : Storage
  states : List (String × Bool)
deriving DecidableEq

/-- The incident message computed on the create path: `reprobe` is the
outcome of the fresh status request, `some status` when that request
returned `StatusError status`, `none` for every other outcome. -/
def incidentMsg (name : String) (reprobe : Option String) : String :=
  match reprobe with
  | some status => "Service " ++ name ++ " is down: HTTP " ++ status ++ " error"
  | none => "Service " ++ name ++ " is down after 5 consecutive failures"

/-- The monitoring-task body from `format_service_id` onwards
(src/main.rs lines 128-174): persist the sample, query the trailing
failure count over 5 samples, then the incident open/close state machine.
Returns `none` exactly where the Rust `unwrap` on the state-map lookup
would panic. -/
def evaluate (sys : SysState) (name : String) (response_time : Int)
    (reprobe : Option String) (now : Nat) : Option SysState :=
  match format_service_id name with
  | .error _ => some sys
  | .ok service_id =>
    let storage := sys.storage.add_response_time service_id response_time
    let recent_failures := storage.count_recent_failures service_id 5
    match lookupState sys.states name with
    | none => none
    | some has_open_incident =>
      if response_time = 0 then
        if 5 ≤ recent_failures ∧ has_open_incident = false then
          if (storage.list_incidents false).any
              (fun i => i.service_id == service_id) = false then
            some ⟨storage.add_incident service_id (incidentMsg name reprobe) now,
              setState sys.states name true⟩
          else
            some ⟨storage, setState sys.states name true⟩
        else
          some ⟨storage, sys.states⟩
      else
        if has_open_incident then
          some ⟨storage.closeAllFor service_id now, setState sys.states name false⟩
        else
          some ⟨storage, sys.states⟩

/-- The HTTP branch of one monitoring task (src/main.rs lines 119-126
feeding lines 128-174): a transport error from the probe is propagated by
`?`, aborting the task before anything is recorded; otherwise the
measured time (0 for a non-success status) is evaluated. -/
def monitorTaskHttp (sys : SysState) (name : String) (env : HttpOutcome)
    (reprobe : Option String) (now : Nat) : Except String (Option SysState) :=
  match get_request_response_time env with
  | .error e => .error e
  | .ok (.Success time) => .ok (evaluate sys name time reprobe now)
  | .ok (.StatusError _) => .ok (evaluate sys name 0 reprobe now)

/-- One cycle of `run_monitoring_loop`: fetch the service list, insert
missing runtime states, then run each service's evaluation with the probe
outcome provided by the `probe` environment (tasks modelled in order;
`none` signals a panicking `unwrap`). -/
def runCycle (sys : SysState) (probe : String → Int)
    (reprobe : String → Option String) (now : Nat) : Option SysState :=
  let names := sys.storage.services.map (fun s => s.name)
  let sys1 : SysState := ⟨sys.storage, ensureStates sys.states names⟩
  names.foldl
    (fun acc n => acc.bind (fun s => evaluate s n (probe n) (reprobe n) now))
    (some sys1)

/-- A one-service system used by the concrete witnesses. -/
def sys0 : SysState :=
  ⟨⟨[⟨"svc", "svc", "http://example", [], false⟩], [], 0⟩, [("svc", false)]⟩

/-- C1 counterexample: a connection error makes the monitoring task return
the propagated error instead of recording a latency-0 Failure sample — no
sample is persisted and no incident evaluation runs for the service in
that cycle. -/
theorem http_failure_propagates_counterexample :
    monitorTaskHttp sys0 "svc" (.netError "connection refused") none 0 =
      .error "connection refused" := by
  rfl

/-- C1 amended: an ordinary network failure (connection error, timeout,
DNS failure) in `get_request_response_time` is returned as `Err`, which
the monitoring task propagates, skipping sample recording and incident
evaluation for that service in that cycle; only a non-success HTTP status
is downgraded to a latency-0 Failure sample that is recorded and
evaluated. -/
theorem http_failure_propagates (sys : SysState) (name msg : String)
    (reprobe : Option String) (now : Nat) :
    monitorTaskHttp sys name (.netError msg) reprobe now = .error msg ∧
    (∀ (elapsed : Int) (status : String),
      monitorTaskHttp sys name (.response false elapsed status) reprobe now =
        .ok (evaluate sys name 0 reprobe now)) :=
  ⟨rfl, fun _ _ => rfl⟩

lemma lookupState_append_isSome (m l : List (String × Bool)) (k : String) :
    (lookupState (m ++ l) k).isSome =
      ((lookupState m k).isSome || (lookupState l k).isSome) := by
  rw [lookupState, lookupState, lookupState, List.find?_append]
  cases m.find? (fun p => p.1 == k) <;> simp [Option.or]

lemma lookupState_singleton_self (k : String) (v : Bool) :
    lookupState [(k, v)] k = some v := by
  simp [lookupState]

lemma setState_lookup_isSome (m : List (String × Bool)) (n k : String) (v : Bool) :
    (lookupState (setState m n v) k).isSome = (lookupState m k).isSome := by
  rw [lookupState, lookupState, setState, List.find?_map]
  have hp : ((fun p : String × Bool => p.1 == k) ∘
      (fun p : String × Bool => if p.1 == n then (p.1, v) else p)) =
      (fun p : String × Bool => p.1 == k) := by
    funext p
    obtain ⟨a, b⟩ := p
    simp only [Function.comp_apply]
    by_cases hpn : a == n
    · rw [if_pos hpn]
    · rw [if_neg hpn]
  rw [hp]
  cases m.find? (fun p => p.1 == k) <;> simp

lemma ensureStates_cons (m : List (String × Bool)) (x : String) (names : List String) :
    ensureStates m (x :: names) =
      ensureStates (if (lookupState m x).isSome then m else m ++ [(x, false)]) names :=
  rfl

lemma ensureStates_preserves (names : List String) :
    ∀ (m : List (String × Bool)) (n : String),
    (lookupState m n).isSome → (lookupState (ensureStates m names) n).isSome := by
  induction names with
  | nil => exact fun m n h => h
  | cons x names ihx =>
    intro m n h
    rw [ensureStates_cons]
    apply ihx
    split
    · exact h
    · rw [lookupState_append_isSome, h]
      rfl

lemma ensureStates_isSome_of_mem (names : List String) :
    ∀ (m : List (String × Bool)) (n : String), n ∈ names →
    (lookupState (ensureStates m names) n).isSome := by
  induction names with
  | nil => intro m n h; simp at h
  | cons x names ihx =>
    intro m n hmem
    rw [ensureStates_cons]
    rcases List.mem_cons.mp hmem with rfl | hmem2
    · apply ensureStates_preserves
      split
      · rename_i hx
        exact hx
      · rw [lookupState_append_isSome, lookupState_singleton_self]
        simp
    · exact ihx _ n hmem2

/-- Every branch of `evaluate` leaves the state map unchanged or updates
the evaluated service's entry in place. -/
lemma evaluate_states (sys : SysState) (name : String) (response_time : Int)
    (reprobe : Option String) (now : Nat) (s' : SysState)
    (h : evaluate sys name response_time reprobe now = some s') :
    s'.states = sys.states ∨ ∃ b, s'.states = setState sys.states name b := by
  simp only [evaluate] at h
  split at h
  · cases h
    left
    rfl
  · split at h
    · cases h
    · split at h
      · split at h
        · split at h
          · cases h
            right
            exact ⟨true, rfl⟩
          · cases h
            right
            exact ⟨true, rfl⟩
        · cases h
          left
          rfl
      · split at h
        · cases h
          right
          exact ⟨false, rfl⟩
        · cases h
          left
          rfl

lemma evaluate_preserves_lookup (sys : SysState) (name : String)
    (response_time : Int) (reprobe : Option String) (now : Nat) (s' : SysState)
    (h : evaluate sys name response_time reprobe now = some s') (k : String) :
    (lookupState s'.states k).isSome = (lookupState sys.states k).isSome := by
  rcases evaluate_states sys name response_time reprobe now s' h with heq | ⟨b, heq⟩ <;>
    rw [heq]
  exact setState_lookup_isSome sys.states name k b

lemma evaluate_isSome (sys : SysState) (name : String) (response_time : Int)
    (reprobe : Option String) (now : Nat)
    (h : (lookupState sys.states name).isSome) :
    (evaluate sys name response_time reprobe now).isSome := by
  simp only [evaluate]
  split
  · rfl
  · cases hls : lookupState sys.states name with
    | none => rw [hls] at h; simp at h
    | some b =>
      simp only [hls]
      split
      · split
        · split <;> rfl
        · rfl
      · split <;> rfl

/-- The per-cycle fold over service names never hits a missing state-map
entry when every dispatched name is present, and it preserves presence of
every key. -/
lemma cycleFold_safe (probe : String → Int) (reprobe : String → Option String)
    (now : Nat) (names : List String) :
    ∀ (s : SysState), (∀ n ∈ names, (lookupState s.states n).isSome) →
    ∃ s', names.foldl
        (fun acc n => acc.bind (fun t => evaluate t n (probe n) (reprobe n) now))
        (some s) = some s' ∧
      ∀ k, (lookupState s'.states k).isSome = (lookupState s.states k).isSome := by
  induction names with
  | nil => exact fun s _ => ⟨s, rfl, fun k => rfl⟩
  | cons n names ihn =>
    intro s hall
    obtain ⟨s1, hs1⟩ := Option.isSome_iff_exists.mp
      (evaluate_isSome s n (probe n) (reprobe n) now (hall n (by simp)))
    have hpres := evaluate_preserves_lookup s n (probe n) (reprobe n) now s1 hs1
    obtain ⟨s', hfold, hk⟩ := ihn s1 (fun m hm => by
      rw [hpres m]
      exact hall m (List.mem_cons_of_mem n hm))
    refine ⟨s', ?_, fun k => (hk k).trans (hpres k)⟩
    rw [List.foldl_cons]
    simpa [hs1] using hfold

/-- C10: every cycle first inserts a state-map entry for each fetched
service name and never removes entries, so the lookup inside each
service's task always finds an entry and the `unwrap` cannot panic
(`runCycle` never returns `none`); moreover any key present before a
cycle is still present after it. -/
theorem state_map_lookup_safe :
    (∀ (sys : SysState) (probe : String → Int)
        (reprobe : String → Option String) (now : Nat),
      (runCycle sys probe reprobe now).isSome = true) ∧
    (∀ (sys s' : SysState) (probe : String → Int)
        (reprobe : String → Option String) (now : Nat) (k : String),
      runCycle sys probe reprobe now = some s' →
        (lookupState sys.states k).isSome = true →
        (lookupState s'.states k).isSome = true) := by
  constructor
  · intro sys probe reprobe now
    obtain ⟨s', hfold, _⟩ := cycleFold_safe probe reprobe now
      (sys.storage.services.map (fun s => s.name))
      ⟨sys.storage, ensureStates sys.states (sys.storage.services.map (fun s => s.name))⟩
      (fun n hn => ensureStates_isSome_of_mem _ _ n hn)
    rw [runCycle, hfold]
    rfl
  · intro sys s' probe reprobe now k hrun hk
    obtain ⟨s2, hfold, hpres⟩ := cycleFold_safe probe reprobe now
      (sys.storage.services.map (fun s => s.name))
      ⟨sys.storage, ensureStates sys.states (sys.storage.services.map (fun s => s.name))⟩
      (fun n hn => ensureStates_isSome_of_mem _ _ n hn)
    rw [runCycle, hfold] at hrun
    cases hrun
    rw [hpres k]
    exact ensureStates_preserves _ _ _ hk

/-- C10 witness: a concrete cycle on the one-service system; the cycle
completes and the pre-existing key is still present. -/
theorem state_map_lookup_safe_witness :
    (runCycle sys0 (fun _ => 1) (fun _ => none) 0).isSome = true ∧
    ∀ s' : SysState, runCycle sys0 (fun _ => 1) (fun _ => none) 0 = some s' →
      (lookupState s'.states "svc").isSome = true :=
  ⟨state_map_lookup_safe.1 sys0 (fun _ => 1) (fun _ => none) 0,
   fun s' hs' => state_map_lookup_safe.2 sys0 s' (fun _ => 1) (fun _ => none) 0 "svc"
     hs' (by rfl)⟩

/-! ### Closing incidents on success (C4) -/

lemma list_incidents_false (st : Storage) :
    st.list_incidents false = st.incidents.filter (fun i => i.end_time.isNone) := rfl

lemma setState_lookup_self (m : List (String × Bool)) (k : String) (v : Bool)
    (h : (lookupState m k).isSome = true) :
    lookupState (setState m k v) k = some v := by
  induction m with
  | nil => rw [lookupState] at h; simp at h
  | cons p m ihm =>
    rw [setState, List.map_cons]
    by_cases hp : (p.1 == k) = true
    · rw [if_pos hp, lookupState,
        @List.find?_cons_of_pos _ (fun q => q.1 == k) (p.1, v) _ hp]
      rfl
    · rw [if_neg hp, lookupState,
        @List.find?_cons_of_neg _ (fun q => q.1 == k) p _ hp]
      have h2 : (lookupState m k).isSome = true := by
        rw [lookupState] at h ⊢
        rw [@List.find?_cons_of_neg _ (fun q => q.1 == k) p _ hp] at h
        exact h
      exact ihm h2

lemma closeFold_length (sid : String) (now : Nat) :
    ∀ (l : List Incident) (st : Storage),
      (l.foldl (fun acc inc =>
        if inc.service_id == sid then acc.end_incident inc.id now else acc)
        st).incidents.length = st.incidents.length := by
  intro l
  induction l with
  | nil => intro st; rfl
  | cons inc l ihl =>
    intro st
    rw [List.foldl_cons]
    by_cases hm : (inc.service_id == sid) = true
    · rw [if_pos hm, ihl]
      rw [Storage.end_incident]
      simp
    · rw [if_neg hm, ihl]

/-- Tracing an incident still open after the close loop back to its source
row: it was open before, and no processed matching incident had its id. -/
lemma closeFold_open_traced (sid : String) (now : Nat) :
    ∀ (l : List Incident) (st : Storage) (e : Incident),
      e ∈ (l.foldl (fun acc inc =>
        if inc.service_id == sid then acc.end_incident inc.id now else acc)
        st).incidents →
      e.end_time = none →
      ∃ e0 ∈ st.incidents, e0.id = e.id ∧ e0.service_id = e.service_id ∧
        e0.end_time = none ∧
        ∀ inc ∈ l, ¬(inc.service_id = sid ∧ inc.id = e0.id) := by
  intro l
  induction l with
  | nil =>
    intro st e he hopen
    exact ⟨e, he, rfl, rfl, hopen, by simp⟩
  | cons inc l ihl =>
    intro st e he hopen
    rw [List.foldl_cons] at he
    by_cases hm : (inc.service_id == sid) = true
    · rw [if_pos hm] at he
      obtain ⟨e1, he1, hid, hsid, hopen1, hrest⟩ := ihl _ e he hopen
      rw [Storage.end_incident] at he1
      simp only [List.mem_map] at he1
      obtain ⟨e0, he0, heq⟩ := he1
      by_cases hcl : (e0.id == inc.id && e0.end_time.isNone) = true
      · rw [if_pos hcl] at heq
        exfalso
        rw [← heq] at hopen1
        simp at hopen1
      · rw [if_neg hcl] at heq
        subst heq
        refine ⟨e0, he0, hid, hsid, hopen1, ?_⟩
        intro inc2 hinc2
        rcases List.mem_cons.mp hinc2 with rfl | hmem
        · rintro ⟨_, hid2⟩
          apply hcl
          simp [hid2, hopen1]
        · exact hrest inc2 hmem
    · rw [if_neg hm] at he
      obtain ⟨e0, he0, hid, hsid, hopen0, hrest⟩ := ihl st e he hopen
      refine ⟨e0, he0, hid, hsid, hopen0, ?_⟩
      intro inc2 hinc2
      rcases List.mem_cons.mp hinc2 with rfl | hmem
      · rintro ⟨hs2, _⟩
        exact hm (by simp [hs2])
      · exact hrest inc2 hmem

/-- After the close loop every incident of the probed service is closed. -/
lemma closeAllFor_closes (st : Storage) (sid : String) (now : Nat) :
    ∀ e ∈ (st.closeAllFor sid now).incidents, e.service_id = sid → e.end_time ≠ none := by
  intro e he hsid hopen
  obtain ⟨e0, he0, hid, hsid0, hopen0, hrest⟩ :=
    closeFold_open_traced sid now (st.list_incidents false) st e he hopen
  refine hrest e0 ?_ ⟨by rw [hsid0, hsid], rfl⟩
  rw [list_incidents_false]
  exact List.mem_filter.mpr ⟨he0, by simp [hopen0]⟩

lemma closeAllFor_length (st : Storage) (sid : String) (now : Nat) :
    (st.closeAllFor sid now).incidents.length = st.incidents.length :=
  closeFold_length sid now _ st

/-- C4: a nonzero (Success) sample evaluated for a service whose runtime
flag is true closes every open incident of that service — also when
several are simultaneously open — giving each a non-null end time without
deleting records, and resets the flag to false; and `end_incident` on an
already-closed incident is a no-op. -/
theorem success_closes_incidents (sys : SysState) (name sid : String)
    (response_time : Int) (reprobe : Option String) (now : Nat)
    (hfmt : format_service_id name = .ok sid)
    (hflag : lookupState sys.states name = some true)
    (hrt : ¬ response_time = 0) :
    (∃ s', evaluate sys name response_time reprobe now = some s' ∧
      (∀ e ∈ s'.storage.incidents, e.service_id = sid → e.end_time ≠ none) ∧
      lookupState s'.states name = some false ∧
      s'.storage.incidents.length = sys.storage.incidents.length) ∧
    (∀ (st : Storage) (iid now2 : Nat),
      (∀ e ∈ st.incidents, e.id = iid → e.end_time ≠ none) →
      st.end_incident iid now2 = st) := by
  constructor
  · refine ⟨⟨(sys.storage.add_response_time sid response_time).closeAllFor sid now,
      setState sys.states name false⟩, ?_, ?_, ?_, ?_⟩
    · simp only [evaluate, hfmt, hflag]
      rw [if_neg hrt]
      simp
    · exact closeAllFor_closes _ sid now
    · exact setState_lookup_self sys.states name false (by rw [hflag]; rfl)
    · rw [closeAllFor_length]
      rfl
  · intro st iid now2 hclosed
    rw [Storage.end_incident]
    have hmap : st.incidents.map (fun i =>
        if i.id == iid && i.end_time.isNone then { i with end_time := some now2 }
        else i) = st.incidents := by
      conv_rhs => rw [← List.map_id st.incidents]
      apply List.map_congr_left
      intro e he
      by_cases hid : (e.id == iid) = true
      · have hcl := hclosed e he (by simpa using hid)
        have hno : e.end_time.isNone = false := by
          cases he2 : e.end_time
          · exact absurd he2 hcl
          · rfl
        simp [hid, hno]
      · simp [hid]
    rw [hmap]

/-- A system with two open incidents for the probed service and one for
another service, used by the C4 witness. -/
def sysTwoOpen : SysState :=
  ⟨⟨[⟨"svc", "svc", "http://example", [], false⟩],
    [⟨0, "svc", "svc", 0, none, "d1"⟩, ⟨1, "svc", "svc", 1, none, "d2"⟩,
      ⟨2, "other", "other", 0, none, "d3"⟩], 3⟩,
   [("svc", true)]⟩

/-- C4 witness: one Success evaluation on a system with two open incidents
for the same service. -/
theorem success_closes_incidents_witness :
    (∃ s', evaluate sysTwoOpen "svc" 1 none 5 = some s' ∧
      (∀ e ∈ s'.storage.incidents, e.service_id = "svc" → e.end_time ≠ none) ∧
      lookupState s'.states "svc" = some false ∧
      s'.storage.incidents.length = sysTwoOpen.storage.incidents.length) ∧
    (∀ (st : Storage) (iid now2 : Nat),
      (∀ e ∈ st.incidents, e.id = iid → e.end_time ≠ none) →
      st.end_incident iid now2 = st) :=
  success_closes_incidents sysTwoOpen "svc" "svc" 1 none 5 (by rfl) (by rfl)
    (by decide)

/-! ### At most one open incident per service (C3) -/

/-- The storage invariant: at most one incident with a null end time per
service. -/
def AtMostOneOpen (st : Storage) : Prop :=
  ∀ sid : String, (openIncidentsFor st sid).length ≤ 1

lemma openFor_addrt (st : Storage) (sid : String) (rt : Int) (sid' : String) :
    openIncidentsFor (st.add_response_time sid rt) sid' = openIncidentsFor st sid' := rfl

lemma any_open_eq_false_iff (st : Storage) (sid : String) :
    ((st.list_incidents false).any (fun i => i.service_id == sid) = false) ↔
      openIncidentsFor st sid = [] := by
  rw [openIncidentsFor, List.any_eq_false, List.filter_eq_nil_iff]

lemma openFor_add_incident_ne (st : Storage) (sid desc : String) (now : Nat)
    (sid' : String) (hne : sid' ≠ sid) :
    openIncidentsFor (st.add_incident sid desc now) sid' = openIncidentsFor st sid' := by
  have hb : (sid == sid') = false := by
    simp
    exact fun hc => hne hc.symm
  simp [openIncidentsFor, list_incidents_false, Storage.add_incident,
    List.filter_append, hb]

lemma openFor_add_incident_self (st : Storage) (sid desc : String) (now : Nat) :
    (openIncidentsFor (st.add_incident sid desc now) sid).length =
      (openIncidentsFor st sid).length + 1 := by
  simp [openIncidentsFor, list_incidents_false, Storage.add_incident,
    List.filter_append]

lemma openFor_end_incident_le (st : Storage) (iid now : Nat) (sid' : String) :
    (openIncidentsFor (st.end_incident iid now) sid').length ≤
      (openIncidentsFor st sid').length := by
  rw [openIncidentsFor, openIncidentsFor, list_incidents_false, list_incidents_false,
    List.filter_filter, List.filter_filter, Storage.end_incident]
  rw [← List.countP_eq_length_filter, ← List.countP_eq_length_filter]
  rw [List.countP_map]
  apply List.countP_mono_left
  intro i hi hPf
  by_cases hc : (i.id == iid && i.end_time.isNone) = true
  · exfalso
    simp only [Function.comp_apply, if_pos hc] at hPf
    simp at hPf
  · simp only [Function.comp_apply, if_neg hc] at hPf
    exact hPf

lemma closeFold_openFor_le (sid : String) (now : Nat) (sid' : String) :
    ∀ (l : List Incident) (st : Storage),
      (openIncidentsFor (l.foldl (fun acc inc =>
        if inc.service_id == sid then acc.end_incident inc.id now else acc) st)
        sid').length ≤ (openIncidentsFor st sid').length := by
  intro l
  induction l with
  | nil => intro st; exact le_refl _
  | cons inc l ihl =>
    intro st
    rw [List.foldl_cons]
    by_cases hm : (inc.service_id == sid) = true
    · rw [if_pos hm]
      exact le_trans (ihl _) (openFor_end_incident_le st inc.id now sid')
    · rw [if_neg hm]
      exact ihl st

lemma closeAllFor_openFor_le (st : Storage) (sid : String) (now : Nat) (sid' : String) :
    (openIncidentsFor (st.closeAllFor sid now) sid').length ≤
      (openIncidentsFor st sid').length :=
  closeFold_openFor_le sid now sid' _ st

/-- The storage reached by one `evaluate` step, by branch: unchanged, only
the sample appended, an incident created after both guards passed, or the
close loop run. -/
lemma evaluate_storage_cases (sys : SysState) (name : String) (rt : Int)
    (rb : Option String) (now : Nat) (s' : SysState)
    (h : evaluate sys name rt rb now = some s') :
    s'.storage = sys.storage ∨
    (∃ sid, s'.storage = sys.storage.add_response_time sid rt) ∨
    (∃ sid desc, format_service_id name = .ok sid ∧
      lookupState sys.states name = some false ∧
      openIncidentsFor sys.storage sid = [] ∧
      s'.storage = (sys.storage.add_response_time sid rt).add_incident sid desc now) ∨
    (∃ sid, s'.storage = (sys.storage.add_response_time sid rt).closeAllFor sid now) := by
  simp only [evaluate] at h
  split at h
  · cases h
    left
    rfl
  · rename_i sid hfmt
    split at h
    · cases h
    · rename_i b hflag
      split at h
      · split at h
        · rename_i hcond
          split at h
          · rename_i hany
            cases h
            right; right; left
            refine ⟨sid, incidentMsg name rb, hfmt, ?_, ?_, ?_⟩
            · rw [hflag, hcond.2]
            · exact (any_open_eq_false_iff _ sid).mp hany
            · rename_i hrt0
              rw [hrt0]
          · cases h
            right; left
            rename_i hrt0 _
            rw [hrt0]
            exact ⟨sid, rfl⟩
        · cases h
          right; left
          rename_i hrt0 _
          rw [hrt0]
          exact ⟨sid, rfl⟩
      · split at h
        · cases h
          right; right; right
          exact ⟨sid, rfl⟩
        · cases h
          right; left
          exact ⟨sid, rfl⟩

lemma evaluate_preserves_atMostOne (sys : SysState) (name : String) (rt : Int)
    (rb : Option String) (now : Nat) (s' : SysState)
    (h : evaluate sys name rt rb now = some s')
    (hinv : AtMostOneOpen sys.storage) : AtMostOneOpen s'.storage := by
  rcases evaluate_storage_cases sys name rt rb now s' h with
    heq | ⟨sid, heq⟩ | ⟨sid, desc, _, _, hopen, heq⟩ | ⟨sid, heq⟩ <;>
      rw [heq] <;> intro sid'
  · exact hinv sid'
  · rw [openFor_addrt]
    exact hinv sid'
  · by_cases hss : sid' = sid
    · subst hss
      rw [openFor_add_incident_self, openFor_addrt, hopen]
      simp
    · rw [openFor_add_incident_ne _ _ _ _ _ hss, openFor_addrt]
      exact hinv sid'
  · exact le_trans (closeAllFor_openFor_le _ sid now sid')
      (by rw [openFor_addrt]; exact hinv sid')

/-- Reachability by the evaluate step relation (arbitrary probe outcomes,
reprobe results and times) together with the per-cycle state-map
pre-pass. -/
inductive Reach (s0 : SysState) : SysState → Prop where
  | refl : Reach s0 s0
  | eval {s s' : SysState} (name : String) (rt : Int) (rb : Option String)
      (now : Nat) : Reach s0 s → evaluate s name rt rb now = some s' → Reach s0 s'
  | ensure {s : SysState} (names : List String) :
      Reach s0 s → Reach s0 ⟨s.storage, ensureStates s.states names⟩

/-- C3: in every state reachable by the evaluate step relation from a
state satisfying it, at most one open incident exists per service; and the
create path runs only after checking both the runtime flag (false) and the
storage open-incident list (empty for the service). -/
theorem at_most_one_open_invariant :
    (∀ (s0 s : SysState), AtMostOneOpen s0.storage → Reach s0 s →
      AtMostOneOpen s.storage) ∧
    (∀ (s : SysState) (name : String) (rt : Int) (rb : Option String) (now : Nat)
        (s' : SysState), evaluate s name rt rb now = some s' →
      s'.storage.incidents.length ≠ s.storage.incidents.length →
      ∃ sid, format_service_id name = .ok sid ∧
        lookupState s.states name = some false ∧
        openIncidentsFor s.storage sid = []) := by
  constructor
  · intro s0 s hinv hreach
    induction hreach with
    | refl => exact hinv
    | eval name rt rb now hr hstep ih =>
      exact evaluate_preserves_atMostOne _ name rt rb now _ hstep ih
    | ensure names hr ih => exact ih
  · intro s name rt rb now s' h hlen
    rcases evaluate_storage_cases s name rt rb now s' h with
      heq | ⟨sid, heq⟩ | ⟨sid, desc, hfmt, hflag, hopen, heq⟩ | ⟨sid, heq⟩
    · rw [heq] at hlen
      exact absurd rfl hlen
    · rw [heq] at hlen
      exact absurd rfl hlen
    · exact ⟨sid, hfmt, hflag, hopen⟩
    · rw [heq, closeAllFor_length] at hlen
      exact absurd rfl hlen

/-- The one-service system after a first failure sample. -/
def sysStep1 : SysState :=
  ⟨⟨[⟨"svc", "svc", "http://example", [0], false⟩], [], 0⟩, [("svc", false)]⟩

/-- A one-service system four failures deep, on the debounce threshold. -/
def sysReady : SysState :=
  ⟨⟨[⟨"svc", "svc", "http://example", [0, 0, 0, 0], false⟩], [], 0⟩, [("svc", false)]⟩

/-- The system `sysReady` reaches when the fifth failure is evaluated. -/
def sysCreated : SysState :=
  ⟨⟨[⟨"svc", "svc", "http://example", [0, 0, 0, 0, 0], false⟩],
    [⟨0, "svc", "svc", 0, none, "Service svc is down after 5 consecutive failures"⟩],
    1⟩, [("svc", true)]⟩

/-- C3 witness: the invariant transported along one concrete evaluate
step, and the check-before-create facts extracted from a concrete
incident-creating step. -/
theorem at_most_one_open_invariant_witness :
    AtMostOneOpen sysStep1.storage ∧
    ∃ sid, format_service_id "svc" = .ok sid ∧
      lookupState sysReady.states "svc" = some false ∧
      openIncidentsFor sysReady.storage sid = [] :=
  ⟨at_most_one_open_invariant.1 sys0 sysStep1
    (by
      intro sid
      simp [sys0, openIncidentsFor, list_incidents_false])
    (Reach.eval "svc" 0 none 0 Reach.refl (by decide)),
   at_most_one_open_invariant.2 sysReady "svc" 0 none 0 sysCreated (by decide)
    (by decide)⟩

/-! ### Incident debounce (C2) -/

lemma recentWindow_eq_drop (rt : List Int) (limit : Nat) :
    recentWindow rt limit = rt.drop (rt.length - limit) := by
  rw [recentWindow]
  split
  · rfl
  · rename_i hle
    rw [Nat.sub_eq_zero_of_le (by omega), List.drop_zero]

/-- Appending through the ring keeps trailing windows: the last `n + 1`
entries after the append are the last `n` entries before it plus the new
value (as long as the window is within the capacity). -/
lemma trailing_ringAppend (h : List Int) (v : Int) (n : Nat)
    (hn : n + 1 ≤ MAX_RESPONSE_TIMES) :
    (ringAppend h v).drop ((ringAppend h v).length - (n + 1)) =
      h.drop (h.length - n) ++ [v] := by
  rw [ringAppend]
  split
  · rename_i hcap
    have hlen : n + 1 ≤ h.length := le_trans hn hcap
    rw [List.length_append, List.length_tail]
    simp only [List.length_cons, List.length_nil]
    have harith : h.length - 1 + (0 + 1) - (n + 1) = h.length - 1 - n := by omega
    rw [harith]
    rw [List.drop_append_of_le_length (by rw [List.length_tail]; omega)]
    congr 1
    rw [← List.drop_one, List.drop_drop]
    congr 1
    omega
  · rename_i hcap
    rw [List.length_append]
    simp only [List.length_cons, List.length_nil]
    have harith : h.length + (0 + 1) - (n + 1) = h.length - n := by omega
    rw [harith]
    rw [List.drop_append_of_le_length (by omega)]

/-- `k` ring appends of the failure sample 0. -/
def appendZeros (h : List Int) : Nat → List Int
  | 0 => h
  | k + 1 => ringAppend (appendZeros h k) 0

lemma appendZeros_drop (h : List Int) :
    ∀ (k m : Nat), m + k ≤ MAX_RESPONSE_TIMES →
    (appendZeros h k).drop ((appendZeros h k).length - (m + k)) =
      h.drop (h.length - m) ++ List.replicate k 0 := by
  intro k
  induction k with
  | zero =>
    intro m hm
    simp [appendZeros]
  | succ k ihk =>
    intro m hm
    have step := trailing_ringAppend (appendZeros h k) 0 (m + k) (by omega)
    rw [show m + (k + 1) = m + k + 1 from by omega]
    rw [show appendZeros h (k + 1) = ringAppend (appendZeros h k) 0 from rfl]
    rw [step, ihk m (by omega), List.append_assoc]
    congr 1
    exact (List.replicate_succ' k 0).symm

lemma countP_replicate_zero (k : Nat) :
    (List.replicate k (0 : Int)).countP (fun x => x == 0) = k := by
  induction k with
  | zero => rfl
  | succ k ih =>
    rw [List.replicate_succ, List.countP_cons]
    simp [ih]

lemma count5_appendZeros (h : List Int) (k : Nat) (hk : k ≤ 5) :
    ((appendZeros h k).drop ((appendZeros h k).length - 5)).countP (fun x => x == 0)
      = (h.drop (h.length - (5 - k))).countP (fun x => x == 0) + k := by
  have hdrop := appendZeros_drop h k (5 - k)
    (by rw [MAX_RESPONSE_TIMES]; omega)
  rw [show 5 - k + k = 5 from by omega] at hdrop
  rw [hdrop, List.countP_append, countP_replicate_zero]

/-- When the most recent persisted sample is nonzero (or no sample
exists), any trailing window of `m ≥ 1` entries holds fewer than `m`
zeros. -/
lemma countZeros_trailing_lt (h : List Int) (m : Nat) (hm : 1 ≤ m)
    (hlast : ∀ x, h.getLast? = some x → ¬ x = 0) :
    (h.drop (h.length - m)).countP (fun x => x == 0) < m := by
  rcases eq_or_ne h [] with rfl | hne
  · simpa using hm
  · have hlen1 : 1 ≤ h.length := List.length_pos.mpr hne
    set l := h.drop (h.length - m) with hl
    have hlen : l.length = h.length - (h.length - m) := by rw [hl, List.length_drop]
    have hlpos : l ≠ [] := by
      rw [← List.length_pos]
      omega
    have hlast_l : ∀ x, l.getLast? = some x → ¬ x = 0 := by
      intro x hx
      apply hlast
      have hsplit : h = h.take (h.length - m) ++ l := (List.take_append_drop _ h).symm
      rw [hsplit, List.getLast?_append, hx]
      rfl
    have hdecomp := List.dropLast_append_getLast hlpos
    have hlast_ne : ¬ (l.getLast hlpos = 0) :=
      hlast_l _ (List.getLast?_eq_getLast l hlpos)
    calc l.countP (fun x => x == 0)
        = (l.dropLast ++ [l.getLast hlpos]).countP (fun x => x == 0) := by
          rw [hdecomp]
      _ = l.dropLast.countP (fun x => x == 0) +
            [l.getLast hlpos].countP (fun x => x == 0) := List.countP_append _ _ _
      _ = l.dropLast.countP (fun x => x == 0) := by simp [hlast_ne]
      _ ≤ l.dropLast.length := List.countP_le_length _
      _ = l.length - 1 := by rw [List.length_dropLast]
      _ < m := by omega

/-- `add_response_time` through the service row found for the id: the
history gains the sample and the row stays findable. -/
lemma getHistory_addrt (st : Storage) (sid : String) (rt : Int) (svc : Service)
    (hfind : st.services.find? (fun s => s.id == sid) = some svc) :
    (st.add_response_time sid rt).getHistory sid = ringAppend svc.response_times rt ∧
    (st.add_response_time sid rt).services.find? (fun s => s.id == sid) =
      some { svc with response_times := ringAppend svc.response_times rt,
                      is_online := decide (0 < rt) } := by
  have hfind2 : (st.add_response_time sid rt).services.find? (fun s => s.id == sid) =
      some { svc with response_times := ringAppend svc.response_times rt,
                      is_online := decide (0 < rt) } := by
    simp only [Storage.add_response_time]
    rw [List.find?_map]
    have hp : ((fun s : Service => s.id == sid) ∘ (fun s : Service =>
        if s.id == sid then
          { s with response_times := ringAppend s.response_times rt,
                   is_online := decide (0 < rt) }
        else s)) = (fun s : Service => s.id == sid) := by
      funext s
      simp only [Function.comp_apply]
      by_cases hs : (s.id == sid) = true
      · rw [if_pos hs]
      · rw [if_neg hs]
    rw [hp, hfind]
    have hsvc : (svc.id == sid) = true :=
      @List.find?_some _ (fun s : Service => s.id == sid) svc _ hfind
    simp [hsvc]
    intro hc
    exact absurd (by simpa using hsvc) hc
  refine ⟨?_, hfind2⟩
  rw [Storage.getHistory, hfind2]

/-- One failure evaluation below the debounce threshold: the sample is
persisted, nothing else changes. -/
lemma evaluate_failure_nocreate (sys : SysState) (name sid : String)
    (rb : Option String) (now : Nat)
    (hfmt : format_service_id name = .ok sid)
    (hflag : lookupState sys.states name = some false)
    (hcount : (sys.storage.add_response_time sid 0).count_recent_failures sid 5 < 5) :
    evaluate sys name 0 rb now =
      some ⟨sys.storage.add_response_time sid 0, sys.states⟩ := by
  have hnle : ¬ 5 ≤ (sys.storage.add_response_time sid 0).count_recent_failures sid 5 := by
    omega
  simp [evaluate, hfmt, hflag, hnle]

/-- One failure evaluation crossing the threshold with both guards clear:
the sample is persisted, an incident is created and the flag set. -/
lemma evaluate_failure_create (sys : SysState) (name sid : String)
    (rb : Option String) (now : Nat)
    (hfmt : format_service_id name = .ok sid)
    (hflag : lookupState sys.states name = some false)
    (hcount : 5 ≤ (sys.storage.add_response_time sid 0).count_recent_failures sid 5)
    (hopen : openIncidentsFor sys.storage sid = []) :
    evaluate sys name 0 rb now =
      some ⟨(sys.storage.add_response_time sid 0).add_incident sid
        (incidentMsg name rb) now, setState sys.states name true⟩ := by
  have hopen2 : openIncidentsFor (sys.storage.add_response_time sid 0) sid = [] := by
    rw [openFor_addrt]
    exact hopen
  have hany := (any_open_eq_false_iff (sys.storage.add_response_time sid 0) sid).mpr hopen2
  simp [evaluate, hfmt, hflag, hcount, hany]

/-- One failure evaluation while the flag is already set: only the sample
is persisted. -/
lemma evaluate_failure_flagtrue (sys : SysState) (name sid : String)
    (rb : Option String) (now : Nat)
    (hfmt : format_service_id name = .ok sid)
    (hflag : lookupState sys.states name = some true) :
    evaluate sys name 0 rb now =
      some ⟨sys.storage.add_response_time sid 0, sys.states⟩ := by
  simp [evaluate, hfmt, hflag]

/-- Iterated failure evaluations: step `k` uses reprobe result `rb k` and
time `ts k`. -/
def evalFailures (sys : SysState) (name : String) (rb : Nat → Option String)
    (ts : Nat → Nat) : Nat → Option SysState
  | 0 => some sys
  | k + 1 => (evalFailures sys name rb ts k).bind
      (fun s => evaluate s name 0 (rb k) (ts k))

/-- The debounce behaviour over six consecutive failures: after four, no
incident exists and the flag is still clear; the fifth creates exactly one
open incident for this service and sets the flag; the sixth creates
nothing further. -/
def DebouncePost (sys : SysState) (name sid : String) (rb : Nat → Option String)
    (ts : Nat → Nat) : Prop :=
  ∃ s4, evalFailures sys name rb ts 4 = some s4 ∧
    s4.storage.incidents = sys.storage.incidents ∧
    lookupState s4.states name = some false ∧
    ∃ s5, evalFailures sys name rb ts 5 = some s5 ∧
      s5.storage.incidents.length = sys.storage.incidents.length + 1 ∧
      (openIncidentsFor s5.storage sid).length = 1 ∧
      lookupState s5.states name = some true ∧
      ∃ s6, evalFailures sys name rb ts 6 = some s6 ∧
        s6.storage.incidents = s5.storage.incidents

/-- C2: for a service whose flag is clear, whose storage holds no open
incident for it, whose row exists, and whose most recent persisted sample
(if any) is not a failure, the debounce pattern holds: 4 consecutive
failures create nothing, the 5th creates exactly one incident and sets
the flag, the 6th creates no second incident.  Each step persists the
sample before the trailing-5 failure count is queried, which is what
makes the 5th (not the 6th) evaluation cross the threshold. -/
theorem incident_debounce (sys : SysState) (name sid : String) (svc : Service)
    (rb : Nat → Option String) (ts : Nat → Nat)
    (hfmt : format_service_id name = .ok sid)
    (hflag : lookupState sys.states name = some false)
    (hopen : openIncidentsFor sys.storage sid = [])
    (hfind : sys.storage.services.find? (fun s => s.id == sid) = some svc)
    (hlast : ∀ x, svc.response_times.getLast? = some x → ¬ x = 0) :
    DebouncePost sys name sid rb ts := by
  obtain ⟨hg1, hf1⟩ := getHistory_addrt sys.storage sid 0 svc hfind
  obtain ⟨hg2, hf2⟩ := getHistory_addrt (sys.storage.add_response_time sid 0)
    sid 0 _ hf1
  obtain ⟨hg3, hf3⟩ := getHistory_addrt
    ((sys.storage.add_response_time sid 0).add_response_time sid 0) sid 0 _ hf2
  obtain ⟨hg4, hf4⟩ := getHistory_addrt
    (((sys.storage.add_response_time sid 0).add_response_time sid
      0).add_response_time sid 0) sid 0 _ hf3
  obtain ⟨hg5, hf5⟩ := getHistory_addrt
    ((((sys.storage.add_response_time sid 0).add_response_time sid
      0).add_response_time sid 0).add_response_time sid 0) sid 0 _ hf4
  have hb4 := countZeros_trailing_lt svc.response_times 4 (by omega) hlast
  have hb3 := countZeros_trailing_lt svc.response_times 3 (by omega) hlast
  have hb2 := countZeros_trailing_lt svc.response_times 2 (by omega) hlast
  have hb1 := countZeros_trailing_lt svc.response_times 1 (by omega) hlast
  have hcnt1 : (sys.storage.add_response_time sid 0).count_recent_failures sid 5
      < 5 := by
    have hgg : (sys.storage.add_response_time sid 0).getHistory sid =
        appendZeros svc.response_times 1 := hg1
    rw [Storage.count_recent_failures, recentWindow_eq_drop, hgg,
      count5_appendZeros _ 1 (by omega)]
    norm_num
    omega
  have hs1 := evaluate_failure_nocreate sys name sid (rb 0) (ts 0) hfmt hflag hcnt1
  have hcnt2 : (((sys.storage.add_response_time sid 0).add_response_time sid
      0)).count_recent_failures sid 5 < 5 := by
    have hgg : ((sys.storage.add_response_time sid 0).add_response_time sid
        0).getHistory sid = appendZeros svc.response_times 2 := hg2
    rw [Storage.count_recent_failures, recentWindow_eq_drop, hgg,
      count5_appendZeros _ 2 (by omega)]
    norm_num
    omega
  have hs2 := evaluate_failure_nocreate
    ⟨sys.storage.add_response_time sid 0, sys.states⟩ name sid (rb 1) (ts 1)
    hfmt hflag hcnt2
  have hcnt3 : ((((sys.storage.add_response_time sid 0).add_response_time sid
      0).add_response_time sid 0)).count_recent_failures sid 5 < 5 := by
    have hgg : (((sys.storage.add_response_time sid 0).add_response_time sid
        0).add_response_time sid 0).getHistory sid =
        appendZeros svc.response_times 3 := hg3
    rw [Storage.count_recent_failures, recentWindow_eq_drop, hgg,
      count5_appendZeros _ 3 (by omega)]
    norm_num
    omega
  have hs3 := evaluate_failure_nocreate
    ⟨(sys.storage.add_response_time sid 0).add_response_time sid 0, sys.states⟩
    name sid (rb 2) (ts 2) hfmt hflag hcnt3
  have hcnt4 : (((((sys.storage.add_response_time sid 0).add_response_time sid
      0).add_response_time sid 0).add_response_time sid
      0)).count_recent_failures sid 5 < 5 := by
    have hgg : ((((sys.storage.add_response_time sid 0).add_response_time sid
        0).add_response_time sid 0).add_response_time sid 0).getHistory sid =
        appendZeros svc.response_times 4 := hg4
    rw [Storage.count_recent_failures, recentWindow_eq_drop, hgg,
      count5_appendZeros _ 4 (by omega)]
    norm_num
    omega
  have hs4 := evaluate_failure_nocreate
    ⟨((sys.storage.add_response_time sid 0).add_response_time sid
      0).add_response_time sid 0, sys.states⟩
    name sid (rb 3) (ts 3) hfmt hflag hcnt4
  have hcnt5 : 5 ≤ ((((((sys.storage.add_response_time sid
      0).add_response_time sid 0).add_response_time sid 0).add_response_time sid
      0).add_response_time sid 0)).count_recent_failures sid 5 := by
    have hgg : (((((sys.storage.add_response_time sid 0).add_response_time sid
        0).add_response_time sid 0).add_response_time sid
        0).add_response_time sid 0).getHistory sid =
        appendZeros svc.response_times 5 := hg5
    rw [Storage.count_recent_failures, recentWindow_eq_drop, hgg,
      count5_appendZeros _ 5 (by omega)]
    norm_num
  have hopen4 : openIncidentsFor
      ((((sys.storage.add_response_time sid 0).add_response_time sid
      0).add_response_time sid 0).add_response_time sid 0) sid = [] := hopen
  have hs5 := evaluate_failure_create
    ⟨(((sys.storage.add_response_time sid 0).add_response_time sid
      0).add_response_time sid 0).add_response_time sid 0, sys.states⟩
    name sid (rb 4) (ts 4) hfmt hflag hcnt5 hopen4
  have hflag5 : lookupState (setState sys.states name true) name = some true :=
    setState_lookup_self sys.states name true (by rw [hflag]; rfl)
  have hs6 := evaluate_failure_flagtrue
    ⟨(((((sys.storage.add_response_time sid 0).add_response_time sid
      0).add_response_time sid 0).add_response_time sid
      0).add_response_time sid 0).add_incident sid (incidentMsg name (rb 4)) (ts 4),
      setState sys.states name true⟩
    name sid (rb 5) (ts 5) hfmt hflag5
  have e1 : evalFailures sys name rb ts 1 =
      some ⟨sys.storage.add_response_time sid 0, sys.states⟩ := hs1
  have e2 : evalFailures sys name rb ts 2 =
      some ⟨(sys.storage.add_response_time sid 0).add_response_time sid 0,
        sys.states⟩ := by
    have hstep : evalFailures sys name rb ts 2 =
        (evalFailures sys name rb ts 1).bind
          (fun s => evaluate s name 0 (rb 1) (ts 1)) := rfl
    rw [hstep, e1]
    exact hs2
  have e3 : evalFailures sys name rb ts 3 =
      some ⟨((sys.storage.add_response_time sid 0).add_response_time sid
        0).add_response_time sid 0, sys.states⟩ := by
    have hstep : evalFailures sys name rb ts 3 =
        (evalFailures sys name rb ts 2).bind
          (fun s => evaluate s name 0 (rb 2) (ts 2)) := rfl
    rw [hstep, e2]
    exact hs3
  have e4 : evalFailures sys name rb ts 4 =
      some ⟨(((sys.storage.add_response_time sid 0).add_response_time sid
        0).add_response_time sid 0).add_response_time sid 0, sys.states⟩ := by
    have hstep : evalFailures sys name rb ts 4 =
        (evalFailures sys name rb ts 3).bind
          (fun s => evaluate s name 0 (rb 3) (ts 3)) := rfl
    rw [hstep, e3]
    exact hs4
  have e5 : evalFailures sys name rb ts 5 =
      some ⟨(((((sys.storage.add_response_time sid 0).add_response_time sid
        0).add_response_time sid 0).add_response_time sid
        0).add_response_time sid 0).add_incident sid
        (incidentMsg name (rb 4)) (ts 4),
        setState sys.states name true⟩ := by
    have hstep : evalFailures sys name rb ts 5 =
        (evalFailures sys name rb ts 4).bind
          (fun s => evaluate s name 0 (rb 4) (ts 4)) := rfl
    rw [hstep, e4]
    exact hs5
  have e6 : evalFailures sys name rb ts 6 =
      some ⟨((((((sys.storage.add_response_time sid 0).add_response_time sid
        0).add_response_time sid 0).add_response_time sid
        0).add_response_time sid 0).add_incident sid
        (incidentMsg name (rb 4)) (ts 4)).add_response_time
        sid 0, setState sys.states name true⟩ := by
    have hstep : evalFailures sys name rb ts 6 =
        (evalFailures sys name rb ts 5).bind
          (fun s => evaluate s name 0 (rb 5) (ts 5)) := rfl
    rw [hstep, e5]
    exact hs6
  refine ⟨_, e4, rfl, hflag, _, e5, ?_, ?_, hflag5, _, e6, rfl⟩
  · have hinc : ((((((sys.storage.add_response_time sid 0).add_response_time
        sid 0).add_response_time sid 0).add_response_time sid
        0).add_response_time sid 0)).incidents = sys.storage.incidents := rfl
    simp [Storage.add_incident, hinc]
  · rw [openFor_add_incident_self]
    have hopen5 : openIncidentsFor
        (((((sys.storage.add_response_time sid 0).add_response_time sid
        0).add_response_time sid 0).add_response_time sid
        0).add_response_time sid 0) sid = [] := hopen
    rw [hopen5]
    rfl

/-- C2 witness: the debounce pattern on the concrete one-service system
with an empty history. -/
theorem incident_debounce_witness :
    DebouncePost sys0 "svc" "svc" (fun _ => none) (fun _ => 0) :=
  incident_debounce sys0 "svc" "svc" ⟨"svc", "svc", "http://example", [], false⟩
    (fun _ => none) (fun _ => 0) (by rfl) (by rfl) (by rfl) (by rfl) (by simp)

end StatusSentinel
